import Mathlib

/-!
Verification of the commercial-listing feed pipeline: a shallow embedding of
the record extraction, normalization, classification, filtering and grouping
logic of the repository's listing components (src/unnamed/part_000,
src/unnamed/part_001 and src/src/pages/index.tsx), with theorems settling the
frozen claims about them.

Modelling conventions:
  - JavaScript strings are Lean `String`; `String.prototype.toLowerCase` is
    mapped over the characters (`Char.toLower`, which lowers exactly the ASCII
    range, matching the source data), and `String.prototype.includes` is the
    substring test `containsSub`.
  - JavaScript numbers carrying prices and areas are rationals `ℚ`;
    `parseFloat` returning `NaN` is `Option.none`, and the `x || d` defaulting
    idiom is `jsNumOr`, which maps both `none` (NaN) and `0` to the default,
    exactly as JS falsiness does.
  - A DOM listing element is a `RawElement`: an association list from tag name
    to (trimmed) text content — first binding wins, empty text is skipped,
    (mirroring the `getFieldValue` helper's `querySelector` +
    `textContent.trim()` loop) — together with the list of image URLs its
    `Images` container yields in document order.
  - `DOMParser` output is an `XmlDoc`: either a reported parse error or the
    list of matched listing elements; `Date.now()` is an explicit `now`
    parameter threaded to the id synthesis.
All functions are total, which models the source's no-throw behavior on its
recovered paths.
-/

namespace CommercialListing

/-- The feed a record originated from: the `type` parameter `'sale' | 'rent'`. -/
inductive ListingType where
  | sale
  | rent
deriving DecidableEq, Repr

/-- String form of the feed kind, as interpolated into synthesized ids. -/
def listingTypeStr : ListingType → String
  | ListingType.sale => "sale"
  | ListingType.rent => "rent"

/-- The `propertyType` field `'commercial' | 'residential'` of part_000's
`Property` interface. -/
inductive UsageClass where
  | commercial
  | residential
deriving DecidableEq, Repr

/-- The canonical `Property` record of src/unnamed/part_000 (lines 21-32). -/
structure Property where
  id : String
  title : String
  price : ℚ
  area : ℚ
  bedrooms : Int
  community : String
  images : List String
  type : ListingType
  propertyType : UsageClass
  category : Option String
deriving DecidableEq, Repr

/-- The leaner `Property` record of src/src/pages/index.tsx (lines 19-28),
which has no `propertyType` or `category` field. -/
structure PropertyIdx where
  id : String
  title : String
  price : ℚ
  area : ℚ
  bedrooms : Int
  community : String
  images : List String
  type : ListingType
deriving DecidableEq, Repr

/-- Is `small` a prefix of `big`? Helper for the substring test. -/
def isPrefixL : List Char → List Char → Bool
  | [], _ => true
  | _ :: _, [] => false
  | a :: as, b :: bs => a == b && isPrefixL as bs

/-- Does `needle` occur as a contiguous substring of `hay`? This is
JavaScript's `hay.includes(needle)` on the character lists; in particular the
empty needle occurs in every haystack. -/
def containsSub (hay needle : List Char) : Bool :=
  match hay with
  | [] => needle.isEmpty
  | _ :: t => isPrefixL needle hay || containsSub t needle

/-- `s.toLowerCase()` as a character list: ASCII lowercasing of each char. -/
def toLowerL (s : String) : List Char := s.data.map Char.toLower

/-- The fixed whitelist `TARGET_COMMUNITIES` (part_000 lines 51-55). -/
def TARGET_COMMUNITIES : List String :=
  ["Business Bay", "Motor City", "Barsha Heights"]

/-- The commercial keyword vocabulary of `isCommercialCategory`
(part_000 lines 65-70, identical in part_001 lines 1192-1197). -/
def commercialPatterns : List String :=
  ["office", "retail", "commercial", "shop", "warehouse", "industrial",
   "business", "clinic", "medical", "restaurant", "cafe", "hotel",
   "showroom", "mall", "plaza", "center", "building", "studio",
   "workspace", "laboratory", "workshop", "factory", "logistics", "storage"]

/-- The commercial classifier `isCommercialCategory` (part_000 lines 64-74):
lower-case the category and test each keyword for substring containment. -/
def isCommercialCategory (category : String) : Bool :=
  let categoryLower := toLowerL category
  commercialPatterns.any fun pattern => containsSub categoryLower pattern.data

/-- The `communityMappings` alias table of part_000 lines 146-153, as the
(key, value) pairs in declaration order — `Object.keys` preserves string-key
insertion order, so `find` scans in exactly this order. -/
def communityMappings : List (String × String) :=
  [("dubai investment park (dip)", "Motor City"),
   ("dubai investment park", "Motor City"),
   ("business bay", "Business Bay"),
   ("motor city", "Motor City"),
   ("barsha heights", "Barsha Heights"),
   ("al barsha heights", "Barsha Heights")]

/-- Community canonicalization (part_000 lines 155-160): the first alias key
that is a substring of the lower-cased community wins; otherwise the raw
community is kept. -/
def canonicalizeCommunity (community : String) : String :=
  match communityMappings.find? (fun kv => containsSub (toLowerL community) kv.fst.data) with
  | some kv => kv.snd
  | none => community

/-- The `communityMappings` table of index.tsx lines 324-330, which lacks the
`al barsha heights` entry of part_000's table. -/
def communityMappingsIdx : List (String × String) :=
  [("dubai investment park (dip)", "Motor City"),
   ("dubai investment park", "Motor City"),
   ("business bay", "Business Bay"),
   ("motor city", "Motor City"),
   ("barsha heights", "Barsha Heights")]

/-- Community canonicalization of index.tsx lines 332-337. -/
def canonicalizeCommunityIdx (community : String) : String :=
  match communityMappingsIdx.find? (fun kv => containsSub (toLowerL community) kv.fst.data) with
  | some kv => kv.snd
  | none => community

/-- The target-community gate (part_000 lines 162-165, index.tsx 339-342):
bidirectional case-insensitive substring containment against the whitelist. -/
def isTargetCommunity (finalCommunity : String) : Bool :=
  TARGET_COMMUNITIES.any fun targetCommunity =>
    containsSub (toLowerL finalCommunity) (toLowerL targetCommunity) ||
    containsSub (toLowerL targetCommunity) (toLowerL finalCommunity)

/-- A listing element's raw field bag: tag name paired with trimmed text
content (first binding wins on lookup), plus the image URL texts collected
from its `Images` container in document order. -/
structure RawElement where
  fields : List (String × String)
  images : List String
deriving DecidableEq, Repr

/-- The `getFieldValue` helper (part_000 lines 126-134): return the first
non-empty trimmed text among an ordered list of candidate tag names, or the
empty string when none matches. -/
def getFieldValue (e : RawElement) (fieldNames : List String) : String :=
  match fieldNames with
  | [] => ""
  | fieldName :: rest =>
    match e.fields.find? (fun kv => kv.fst == fieldName) with
    | some kv => if kv.snd = "" then getFieldValue e rest else kv.snd
    | none => getFieldValue e rest

/-- Decimal value of a digit list, most significant first. -/
def digitsVal (ds : List Char) : Nat :=
  ds.foldl (fun n c => 10 * n + (c.toNat - 48)) 0

/-- The digit-stripping `replace(/[^\d.]/g, '')` applied before `parseFloat`:
keep only decimal digits and dots. -/
def stripNonDigitDot (s : String) : List Char :=
  s.data.filter fun c => c.isDigit || c == '.'

/-- JavaScript `parseFloat` restricted to the digit-and-dot strings produced
by `stripNonDigitDot`: leading integer digits, then an optional dot and
fraction digits; anything after is ignored; `none` models `NaN` (no leading
digit in either part). -/
def parseFloatStripped (cs : List Char) : Option ℚ :=
  let intPart := cs.takeWhile Char.isDigit
  let rest := cs.drop intPart.length
  let fracPart := match rest with
    | '.' :: r => r.takeWhile Char.isDigit
    | _ => []
  if intPart.isEmpty && fracPart.isEmpty then none
  else some (mkRat (digitsVal intPart * 10 ^ fracPart.length + digitsVal fracPart) (10 ^ fracPart.length))

/-- The JavaScript defaulting idiom `parseFloat(s) || d`: both `NaN` (`none`)
and `0` are falsy and fall back to the default. -/
def jsNumOr (d : ℚ) (v : Option ℚ) : ℚ :=
  match v with
  | none => d
  | some q => if q = 0 then d else q

/-- JavaScript `parseInt` in base 10: skip leading whitespace, accept an
optional sign, then leading decimal digits; `none` models `NaN`. (The hex
`0x` form never arises for the bedroom counts this is applied to.) -/
def parseIntJS (s : String) : Option Int :=
  let cs := s.data.dropWhile fun c => c == ' ' || c == '\t' || c == '\n' || c == '\r'
  match cs with
  | '-' :: rest =>
    let ds := rest.takeWhile Char.isDigit
    if ds.isEmpty then none else some (-(digitsVal ds : Int))
  | '+' :: rest =>
    let ds := rest.takeWhile Char.isDigit
    if ds.isEmpty then none else some (digitsVal ds : Int)
  | _ =>
    let ds := cs.takeWhile Char.isDigit
    if ds.isEmpty then none else some (digitsVal ds : Int)

/-- The defaulting idiom `parseInt(s) || d` on integers. -/
def jsIntOr (d : Int) (v : Option Int) : Int :=
  match v with
  | none => d
  | some n => if n = 0 then d else n

/-- The fixed 3-element placeholder image set `fallbackImages`
(part_000 line 193): the three imported hero assets. -/
def fallbackImages : List String :=
  ["heroProperty1", "heroProperty2", "heroProperty3"]

/-- Candidate tag names for the category field (part_000 line 136). -/
def categoryFieldNames : List String :=
  ["Category", "PropertyCategory", "PropertyType", "UnitCategory", "Type"]

/-- Candidate tag names for the community field (part_000 line 143). -/
def communityFieldNames : List String :=
  ["Community", "CommunityName", "Location", "Area"]

/-- Candidate tag names for the title field (part_000 line 171). -/
def titleFieldNames : List String :=
  ["PropertyName", "PropertyTitle", "Title", "Name"]

/-- Candidate price tag names for the sale feed (part_000 line 174). -/
def salePriceFieldNames : List String :=
  ["SellPrice", "Price", "PropertyPrice", "SalePrice"]

/-- Candidate price tag names for the rent feed (part_000 line 175). -/
def rentPriceFieldNames : List String :=
  ["Rent", "RentPrice", "Price", "PropertyPrice"]

/-- Candidate tag names for the area field (part_000 line 176). -/
def areaFieldNames : List String :=
  ["BuiltupArea", "FloorArea", "Area", "PropertyArea", "TotalArea"]

/-- Candidate tag names for the bedrooms field (part_000 line 177). -/
def bedroomsFieldNames : List String :=
  ["Bedrooms", "BedroomCount", "NumberOfBedrooms"]

/-- The feed-kind-specific raw price string (part_000 lines 173-175). -/
def priceStrOf (t : ListingType) (e : RawElement) : String :=
  match t with
  | ListingType.sale => getFieldValue e salePriceFieldNames
  | ListingType.rent => getFieldValue e rentPriceFieldNames

/-- The derived price (part_000 line 179): digit-strip, `parseFloat`, `|| 0`. -/
def derivedPrice (t : ListingType) (e : RawElement) : ℚ :=
  jsNumOr 0 (parseFloatStripped (stripNonDigitDot (priceStrOf t e)))

/-- The derived area (part_000 line 180): digit-strip, `parseFloat`, `|| 800`. -/
def derivedArea (e : RawElement) : ℚ :=
  jsNumOr 800 (parseFloatStripped (stripNonDigitDot (getFieldValue e areaFieldNames)))

/-- The per-element body of `processChunk` inside
`parseXMLPropertiesOptimized` (part_000 lines 122-213): category extraction
and commercial gate, community canonicalization and target gate, field and
image derivation, price gate, and construction. `now` is the `Date.now()`
timestamp mixed into the id; `i` the element's position. -/
def processElement (t : ListingType) (now i : Nat) (e : RawElement) : Option Property :=
  let category := getFieldValue e categoryFieldNames
  if category = "" ∨ isCommercialCategory category = false then none
  else
    let community := getFieldValue e communityFieldNames
    let finalCommunity := canonicalizeCommunity community
    if isTargetCommunity finalCommunity = false then none
    else
      let title0 := getFieldValue e titleFieldNames
      let title := if title0 = "" then "Property " ++ toString (i + 1) else title0
      let price := derivedPrice t e
      let area := derivedArea e
      let bedrooms := jsIntOr 0 (parseIntJS (getFieldValue e bedroomsFieldNames))
      let finalImages := if 0 < e.images.length then e.images.take 5 else fallbackImages
      if 0 < price then
        some { id := listingTypeStr t ++ "-" ++ toString now ++ "-" ++ toString i,
               title := title, price := price, area := area, bedrooms := bedrooms,
               community := finalCommunity, images := finalImages, type := t,
               propertyType := UsageClass.commercial, category := some category }
      else none

/-- Outcome of handing raw XML text to `DOMParser`: either the document
carries a `parsererror` element, or it yields the listing elements matching
`UnitDTO, Property, property, PropertyInfo` in document order. -/
inductive XmlDoc where
  | parseError (message : String)
  | ok (elements : List RawElement)
deriving DecidableEq, Repr

/-- `parseXMLPropertiesOptimized` (part_000 lines 104-233): on a parser
error return the empty list; otherwise process the first 300 elements in
order (the chunked loop visits indices `0 ≤ i < min(length, 300)` and
preserves order), collecting the constructed properties. Totality models the
function's catch-all returning `[]` instead of throwing. -/
def parseXMLPropertiesOptimized (doc : XmlDoc) (t : ListingType) (now : Nat) : List Property :=
  match doc with
  | XmlDoc.parseError _ => []
  | XmlDoc.ok elements =>
    ((elements.take 300).enum).filterMap fun ie => processElement t now ie.fst ie.snd

/-- The per-element body of `parseXMLProperties` in index.tsx
(lines 276-359): no commercial gate, bedrooms default 1 (`parseInt || 1`
at line 301 and `bedrooms || 1` again at line 350), no image cap, the
5-entry alias table, and a combined target-community and price gate. -/
def processElementIdx (t : ListingType) (i : Nat) (e : RawElement) : Option PropertyIdx :=
  let title0 := getFieldValue e titleFieldNames
  let title := if title0 = "" then "Property " ++ toString (i + 1) else title0
  let community := getFieldValue e communityFieldNames
  let price := derivedPrice t e
  let area := derivedArea e
  let bedrooms := jsIntOr 1 (parseIntJS (getFieldValue e bedroomsFieldNames))
  let finalImages := if 0 < e.images.length then e.images else fallbackImages
  let finalCommunity := canonicalizeCommunityIdx community
  if isTargetCommunity finalCommunity = true ∧ 0 < price then
    some { id := listingTypeStr t ++ "-" ++ toString i, title := title,
           price := price, area := area,
           bedrooms := if bedrooms = 0 then 1 else bedrooms,
           community := finalCommunity, images := finalImages, type := t }
  else none

/-- The filter state as the four `useState` hooks hold it
(part_000 lines 405-408): search term, price range, area range, selected
property type. -/
structure Filters where
  searchTerm : String
  priceLow : ℚ
  priceHigh : ℚ
  areaLow : ℚ
  areaHigh : ℚ
  selectedPropertyType : String
deriving DecidableEq, Repr

/-- The filter predicate of `filteredProperties` (part_000 lines 513-543):
commercial check, case-insensitive search over title or community or
category, price range, area range, and the property-type substring clause
(which, mirroring the JS truthiness test `property.category && ...`, only
applies when a non-empty category is present). -/
def passesFilter (f : Filters) (p : Property) : Bool :=
  if p.propertyType ≠ UsageClass.commercial then false
  else if f.searchTerm ≠ "" ∧
      containsSub (toLowerL p.title) (toLowerL f.searchTerm) = false ∧
      containsSub (toLowerL p.community) (toLowerL f.searchTerm) = false ∧
      ¬ (p.category.getD "" ≠ "" ∧
         containsSub (toLowerL (p.category.getD "")) (toLowerL f.searchTerm) = true) then false
  else if p.price < f.priceLow ∨ f.priceHigh < p.price then false
  else if p.area < f.areaLow ∨ f.areaHigh < p.area then false
  else if f.selectedPropertyType ≠ "" ∧ f.selectedPropertyType ≠ "any" ∧
      p.category.getD "" ≠ "" ∧
      containsSub (toLowerL (p.category.getD "")) f.selectedPropertyType.data = false then false
  else true

/-- `filteredProperties` (part_000 lines 513-543) as a pure function of the
loaded collection and the filter state. -/
def filteredProperties (props : List Property) (f : Filters) : List Property :=
  props.filter (passesFilter f)

/-- The grouper `propertiesByCommunity` (part_000 lines 546-554): one entry
per whitelist community, in whitelist order, holding the filtered properties
whose community is exactly that name. -/
def propertiesByCommunity (filtered : List Property) : List (String × List Property) :=
  TARGET_COMMUNITIES.map fun community =>
    (community, filtered.filter fun p => p.community = community)

/-- The filter state as first initialized (part_000 lines 405-408):
search `''`, price range `[0, 5000000]`, area range `[0, 2000]`, type `'any'`. -/
def initialFilters : Filters :=
  { searchTerm := "", priceLow := 0, priceHigh := 5000000,
    areaLow := 0, areaHigh := 2000, selectedPropertyType := "any" }

/-- The filter state after `clearFilters` (part_000 lines 626-631), which
resets all four hooks to their initial values. -/
def clearFilters : Filters :=
  { searchTerm := "", priceLow := 0, priceHigh := 5000000,
    areaLow := 0, areaHigh := 2000, selectedPropertyType := "any" }

/-! ## Concrete example inputs used by counterexamples and witnesses -/

/-- A commercial sale listing element with no community field at all. -/
def elemNoCommunity : RawElement :=
  ⟨[("Category", "Office"), ("SellPrice", "500000")], []⟩

/-- A commercial listing element in a target community whose price field is
the unparsable string `N/A`. -/
def elemPriceNA : RawElement :=
  ⟨[("Category", "Office"), ("Community", "Business Bay"), ("SellPrice", "N/A")], []⟩

/-- A target-community sale listing element with no bedrooms field. -/
def elemNoBedrooms : RawElement :=
  ⟨[("Community", "Business Bay"), ("SellPrice", "100")], []⟩

/-- A fully regular commercial sale listing element in a target community. -/
def elemGood : RawElement :=
  ⟨[("Category", "Office"), ("Community", "Business Bay"), ("SellPrice", "500000")], []⟩

/-- The property `processElement` constructs from `elemGood` at position 0
with timestamp 0. -/
def propGood : Property :=
  { id := "sale-0-0", title := "Property 1", price := 500000, area := 800,
    bedrooms := 0, community := "Business Bay", images := fallbackImages,
    type := ListingType.sale, propertyType := UsageClass.commercial,
    category := some "Office" }

/-- A commercial property carrying no category value. -/
def propNoCategory : Property :=
  { id := "x", title := "Bay Unit", price := 100, area := 100,
    bedrooms := 0, community := "Business Bay", images := ["u"],
    type := ListingType.sale, propertyType := UsageClass.commercial,
    category := none }

/-- A filter state selecting the `office` property type, everything else at
its cleared default. -/
def filtersOffice : Filters :=
  { searchTerm := "", priceLow := 0, priceHigh := 5000000,
    areaLow := 0, areaHigh := 2000, selectedPropertyType := "office" }

/-! ## Helper lemmas -/

/-- `List.find?` returns the element at the first index satisfying the
predicate: if `p` holds at `i` and fails at every earlier index, the find
result is the element at `i`. -/
theorem find?_eq_some_of_first {α : Type} (p : α → Bool) :
    ∀ (l : List α) (i : Nat) (hi : i < l.length),
      p (l.get ⟨i, hi⟩) = true →
      (∀ (j : Nat) (hj : j < i), p (l.get ⟨j, Nat.lt_trans hj hi⟩) = false) →
      l.find? p = some (l.get ⟨i, hi⟩)
  | [], i, hi, _, _ => absurd hi (by simp)
  | a :: l, 0, _, hp, _ => by
      simpa using List.find?_cons_of_pos l hp
  | a :: l, i + 1, hi, hp, hmin => by
      have ha : p a = false := hmin 0 (Nat.succ_pos i)
      rw [List.find?_cons_of_neg l (by simp [ha])]
      exact find?_eq_some_of_first p l i (Nat.lt_of_succ_lt_succ hi) hp
        (fun j hj => hmin (j + 1) (Nat.succ_lt_succ hj))

/-- Inversion of `processElement`: a constructed property records the derived
price (which passed the positivity gate), the canonicalized community (which
passed the target gate), the derived bedrooms and the derived image list. -/
theorem processElement_inv (t : ListingType) (now i : Nat) (e : RawElement) (p : Property)
    (h : processElement t now i e = some p) :
    p.price = derivedPrice t e ∧ 0 < derivedPrice t e ∧
    p.community = canonicalizeCommunity (getFieldValue e communityFieldNames) ∧
    isTargetCommunity p.community = true ∧
    p.bedrooms = jsIntOr 0 (parseIntJS (getFieldValue e bedroomsFieldNames)) ∧
    p.images = (if 0 < e.images.length then e.images.take 5 else fallbackImages) ∧
    p.propertyType = UsageClass.commercial := by
  simp only [processElement] at h
  split at h
  · exact absurd h (by simp)
  · split at h
    · exact absurd h (by simp)
    · split at h
      · rw [Option.some_inj] at h
        subst h
        rename_i hgate hprice
        simp only [Bool.not_eq_false] at hgate
        exact ⟨rfl, hprice, rfl, hgate, rfl, rfl, rfl⟩
      · exact absurd h (by simp)

/-- Membership in the optimized parser's output comes from `processElement`
succeeding on one of the first 300 elements. -/
theorem mem_parse_inv (es : List RawElement) (t : ListingType) (now : Nat) (p : Property)
    (h : p ∈ parseXMLPropertiesOptimized (XmlDoc.ok es) t now) :
    ∃ i e, processElement t now i e = some p := by
  simp only [parseXMLPropertiesOptimized, List.mem_filterMap] at h
  obtain ⟨⟨i, e⟩, _, hpe⟩ := h
  exact ⟨i, e, hpe⟩

/-! ## Claim theorems -/

/-- C3: for every raw category string, the commercial classifier returns
commercial iff the lower-cased string contains at least one of the fixed
keyword substrings; in particular "Modern Office Space" classifies as
commercial and "2 Bedroom Apartment" does not. -/
theorem c3_commercial_classifier_iff :
    (∀ category : String,
        isCommercialCategory category = true ↔
          ∃ pattern ∈ commercialPatterns,
            containsSub (toLowerL category) pattern.data = true)
    ∧ isCommercialCategory "Modern Office Space" = true
    ∧ isCommercialCategory "2 Bedroom Apartment" = false := by
  refine ⟨?_, by decide, by decide⟩
  intro category
  simp [isCommercialCategory, List.any_eq_true]

/-- C4: canonicalization returns the mapped value of the first alias key (in
the table's declaration order) that is a substring of the lower-cased raw
community, and leaves a community matching no key unchanged; in particular
"Dubai Investment Park (DIP) — Phase 2" canonicalizes to "Motor City" and
"Al Barsha Heights" to "Barsha Heights". -/
theorem c4_canonicalization_first_alias_wins :
    (∀ community : String,
        (∀ kv ∈ communityMappings,
          containsSub (toLowerL community) kv.fst.data = false) →
        canonicalizeCommunity community = community)
    ∧ (∀ (community : String) (i : Nat) (hi : i < communityMappings.length),
        containsSub (toLowerL community) ((communityMappings.get ⟨i, hi⟩).fst.data) = true →
        (∀ (j : Nat) (hj : j < i),
          containsSub (toLowerL community)
            ((communityMappings.get ⟨j, Nat.lt_trans hj hi⟩).fst.data) = false) →
        canonicalizeCommunity community = (communityMappings.get ⟨i, hi⟩).snd)
    ∧ canonicalizeCommunity "Dubai Investment Park (DIP) — Phase 2" = "Motor City"
    ∧ canonicalizeCommunity "Al Barsha Heights" = "Barsha Heights" := by
  refine ⟨?_, ?_, by decide, by decide⟩
  · intro community hnone
    unfold canonicalizeCommunity
    rw [List.find?_eq_none.mpr fun kv hkv => by simp [hnone kv hkv]]
  · intro community i hi hp hmin
    unfold canonicalizeCommunity
    rw [find?_eq_some_of_first _ communityMappings i hi hp hmin]

/-- C5: every property the normalizer outputs has positive price — a
candidate whose derived price is ≤ 0 is excluded — and in particular an
element whose price field is "N/A" (digit-stripped parse yields no number,
defaulted to 0) produces no record. -/
theorem c5_nonpositive_price_excluded :
    (∀ (doc : XmlDoc) (t : ListingType) (now : Nat) (p : Property),
        p ∈ parseXMLPropertiesOptimized doc t now → 0 < p.price)
    ∧ parseXMLPropertiesOptimized (XmlDoc.ok [elemPriceNA]) ListingType.sale 0 = [] := by
  refine ⟨?_, by decide⟩
  intro doc t now p hp
  match doc with
  | XmlDoc.parseError m => exact absurd hp (by simp [parseXMLPropertiesOptimized])
  | XmlDoc.ok es =>
    obtain ⟨i, e, he⟩ := mem_parse_inv es t now p hp
    obtain ⟨hpr, hpos, -⟩ := processElement_inv t now i e p he
    rw [hpr]
    exact hpos

/-- C9: for every input text on which the XML parser reports an error, the
record extractor returns the empty sequence of properties (the function is
total: the error path yields `[]` rather than raising). -/
theorem c9_parse_error_yields_empty (message : String) (t : ListingType) (now : Nat) :
    parseXMLPropertiesOptimized (XmlDoc.parseError message) t now = [] := rfl

/-- C8: every property the optimized normalizer constructs has a non-empty
images list; when no image URLs were extracted it is exactly the fixed
3-element placeholder set, and an extracted list is truncated to its first 5
URLs in document order (so the list never exceeds 5 entries). -/
theorem c8_images_nonempty_capped (t : ListingType) (now i : Nat) (e : RawElement)
    (p : Property) (h : processElement t now i e = some p) :
    1 ≤ p.images.length ∧ p.images.length ≤ 5 ∧
    (e.images = [] → p.images = fallbackImages) ∧
    (e.images ≠ [] → p.images = e.images.take 5) := by
  obtain ⟨-, -, -, -, -, himg, -⟩ := processElement_inv t now i e p h
  rw [himg]
  by_cases hempty : e.images = []
  · simp [hempty, fallbackImages]
  · have hlen : 0 < e.images.length := List.length_pos.mpr hempty
    refine ⟨?_, ?_, fun hc => absurd hc hempty, fun _ => by simp [hlen]⟩
    · simp only [if_pos hlen, List.length_take]
      omega
    · simp only [if_pos hlen, List.length_take]
      omega

/-- C8 witness: the theorem applied to the concrete element `elemGood`
(whose extracted image list is empty) and the property it constructs. -/
theorem c8_images_witness :
    1 ≤ (propGood.images).length ∧ (propGood.images).length ≤ 5 ∧
    (elemGood.images = [] → propGood.images = fallbackImages) ∧
    (elemGood.images ≠ [] → propGood.images = elemGood.images.take 5) :=
  c8_images_nonempty_capped ListingType.sale 0 0 elemGood propGood (by decide)

/-- C7 counterexample: the index.tsx parser (cited by the claim) constructs,
from a listing element with no bedrooms field, a property whose bedrooms
value is 1, not 0 — `parseInt(bedroomsStr) || 1` defaults to 1 there. -/
theorem c7_counterexample_bedrooms_default_one :
    (processElementIdx ListingType.sale 0 elemNoBedrooms).map PropertyIdx.bedrooms
        = some 1
    ∧ (processElementIdx ListingType.sale 0 elemNoBedrooms).map PropertyIdx.bedrooms
        ≠ some 0 := by
  constructor
  · decide
  · decide

/-- C7 (amended): for every listing element whose bedrooms field is absent or
unparsable as an integer, the optimized parser (part_000/part_001) constructs
the property with bedrooms 0, while the index.tsx parser defaults bedrooms
to 1. -/
theorem c7_bedrooms_defaults :
    (∀ (t : ListingType) (now i : Nat) (e : RawElement) (p : Property),
        processElement t now i e = some p →
        parseIntJS (getFieldValue e bedroomsFieldNames) = none →
        p.bedrooms = 0)
    ∧ (∀ (t : ListingType) (i : Nat) (e : RawElement) (p : PropertyIdx),
        processElementIdx t i e = some p →
        parseIntJS (getFieldValue e bedroomsFieldNames) = none →
        p.bedrooms = 1) := by
  constructor
  · intro t now i e p h hnone
    obtain ⟨-, -, -, -, hbeds, -⟩ := processElement_inv t now i e p h
    rw [hbeds, hnone]
    rfl
  · intro t i e p h hnone
    simp only [processElementIdx, hnone] at h
    split at h
    · rw [Option.some_inj] at h
      subst h
      rfl
    · exact absurd h (by simp)

/-- C1 counterexample: the empty community string does satisfy the
bidirectional containment rule (it is a substring of every nonempty whitelist
entry), so a listing element with no community field is not rejected — the
parser emits a record for it (here one with community `""`). -/
theorem c1_counterexample_empty_community_kept :
    isTargetCommunity "" = true ∧
    parseXMLPropertiesOptimized (XmlDoc.ok [elemNoCommunity]) ListingType.sale 0 ≠ [] := by
  constructor
  · decide
  · decide

/-- C1 (amended): for every listing element whose field-bag has no community
field (so the extracted community string is empty), the target-community gate
succeeds on the empty string (under bidirectional substring containment the
empty string is contained in every whitelist entry), so the record is not
rejected by that gate: whenever the category and price gates pass, it appears
in the normalized output with community `""`. -/
theorem c1_empty_community_passes_gate (t : ListingType) (now i : Nat) (e : RawElement)
    (hcomm : getFieldValue e communityFieldNames = "")
    (hcat : ¬ getFieldValue e categoryFieldNames = "")
    (hcommercial : isCommercialCategory (getFieldValue e categoryFieldNames) = true)
    (hprice : 0 < derivedPrice t e) :
    ∃ p, processElement t now i e = some p ∧ p.community = "" := by
  have hcanon : canonicalizeCommunity (getFieldValue e communityFieldNames) = "" := by
    rw [hcomm]
    decide
  have htarget : isTargetCommunity (canonicalizeCommunity (getFieldValue e communityFieldNames))
      = true := by
    rw [hcanon]
    decide
  have h1 : ¬ (getFieldValue e categoryFieldNames = "" ∨
      isCommercialCategory (getFieldValue e categoryFieldNames) = false) := by
    rintro (hbad | hbad)
    · exact hcat hbad
    · rw [hcommercial] at hbad
      exact absurd hbad (by simp)
  have h2 : ¬ isTargetCommunity (canonicalizeCommunity (getFieldValue e communityFieldNames))
      = false := by
    rw [htarget]
    simp
  simp only [processElement]
  rw [if_neg h1, if_neg h2, if_pos hprice]
  exact ⟨_, rfl, hcanon⟩

/-- C1 witness for the amended statement: the concrete element with a
category and price but no community field. -/
theorem c1_empty_community_witness :
    ∃ p, processElement ListingType.sale 0 0 elemNoCommunity = some p ∧ p.community = "" :=
  c1_empty_community_passes_gate ListingType.sale 0 0 elemNoCommunity
    (by decide) (by decide) (by decide) (by decide)

/-- C2 counterexample: a property with no category value passes the filter
even though the property-type filter is set to `office` (not `any`) — the
clause `property.category && ...` short-circuits on a missing category, so
the record appears in the filtered collection. -/
theorem c2_counterexample_no_category_passes :
    passesFilter filtersOffice propNoCategory = true ∧
    filteredProperties [propNoCategory] filtersOffice = [propNoCategory] := by
  constructor
  · decide
  · decide

/-- C2 (amended): for every property with no category value, a property-type
filter other than "any" has no effect: the filter clause only rejects when a
category is present, so the property passes or fails exactly as it would
under the "any" filter. -/
theorem c2_no_category_ignores_type_filter (f : Filters) (p : Property)
    (hcat : p.category = none) :
    passesFilter f p = passesFilter { f with selectedPropertyType := "any" } p := by
  simp [passesFilter, hcat]

/-- C2 witness for the amended statement: the concrete category-less property
under the `office` filter behaves as under the `any` filter. -/
theorem c2_no_category_witness :
    passesFilter filtersOffice propNoCategory
      = passesFilter { filtersOffice with selectedPropertyType := "any" } propNoCategory :=
  c2_no_category_ignores_type_filter filtersOffice propNoCategory rfl

/-- C6: the grouper produces exactly one entry per whitelist community (the
keys are exactly the whitelist, which has no duplicates, and a community with
zero matches maps to the empty list rather than an absent key), each group is
an order-preserving sublist of the filtered collection, a property lies in
some group iff it is in the filtered collection with a community equal to a
whitelist name (so the union of the groups is exactly that restriction),
distinct groups are disjoint, and every record the normalizer emits passed
the target-community gate (a record rejected there is never in the collection
and so in no group). -/
theorem c6_grouper_partition :
    TARGET_COMMUNITIES.Nodup
    ∧ (∀ filtered : List Property,
        (propertiesByCommunity filtered).map Prod.fst = TARGET_COMMUNITIES)
    ∧ (∀ (filtered : List Property) (g : String × List Property),
        g ∈ propertiesByCommunity filtered → g.snd.Sublist filtered)
    ∧ (∀ (filtered : List Property) (p : Property),
        (∃ g ∈ propertiesByCommunity filtered, p ∈ g.snd) ↔
          p ∈ filtered ∧ p.community ∈ TARGET_COMMUNITIES)
    ∧ (∀ (filtered : List Property) (g₁ g₂ : String × List Property),
        g₁ ∈ propertiesByCommunity filtered → g₂ ∈ propertiesByCommunity filtered →
        g₁.fst ≠ g₂.fst → ∀ p, p ∈ g₁.snd → p ∉ g₂.snd)
    ∧ (∀ (es : List RawElement) (t : ListingType) (now : Nat) (p : Property),
        p ∈ parseXMLPropertiesOptimized (XmlDoc.ok es) t now →
        isTargetCommunity p.community = true) := by
  refine ⟨by decide, ?_, ?_, ?_, ?_, ?_⟩
  · intro filtered
    simp only [propertiesByCommunity, List.map_map]
    exact List.map_id TARGET_COMMUNITIES
  · intro filtered g hg
    simp only [propertiesByCommunity, List.mem_map] at hg
    obtain ⟨c, -, rfl⟩ := hg
    exact List.filter_sublist filtered
  · intro filtered p
    constructor
    · rintro ⟨g, hg, hpg⟩
      simp only [propertiesByCommunity, List.mem_map] at hg
      obtain ⟨c, hc, rfl⟩ := hg
      rw [List.mem_filter] at hpg
      obtain ⟨hmem, hcomm⟩ := hpg
      rw [decide_eq_true_eq] at hcomm
      exact ⟨hmem, hcomm ▸ hc⟩
    · rintro ⟨hmem, hin⟩
      refine ⟨(p.community, filtered.filter fun q => q.community = p.community), ?_, ?_⟩
      · simp only [propertiesByCommunity, List.mem_map]
        exact ⟨p.community, hin, rfl⟩
      · rw [List.mem_filter]
        exact ⟨hmem, by simp⟩
  · intro filtered g₁ g₂ hg₁ hg₂ hne p hp₁ hp₂
    simp only [propertiesByCommunity, List.mem_map] at hg₁ hg₂
    obtain ⟨c₁, -, rfl⟩ := hg₁
    obtain ⟨c₂, -, rfl⟩ := hg₂
    rw [List.mem_filter, decide_eq_true_eq] at hp₁ hp₂
    exact hne (by rw [← hp₁.2, ← hp₂.2])
  · intro es t now p hp
    obtain ⟨i, e, he⟩ := mem_parse_inv es t now p hp
    obtain ⟨-, -, -, htarget, -⟩ := processElement_inv t now i e p he
    exact htarget

/-- C10: the price and area range bounds are always enforced by the filter
engine, and `clearFilters` resets the ranges to exactly `[0, 5000000]` and
`[0, 2000]` (the same values the state is initialized with); hence a property
with price above 5000000 or area above 2000 is excluded from the filtered
collection even under cleared filters. -/
theorem c10_cleared_ranges_still_exclude :
    clearFilters.priceLow = 0 ∧ clearFilters.priceHigh = 5000000 ∧
    clearFilters.areaLow = 0 ∧ clearFilters.areaHigh = 2000 ∧
    initialFilters = clearFilters ∧
    (∀ (props : List Property) (p : Property),
        5000000 < p.price ∨ 2000 < p.area →
        p ∉ filteredProperties props clearFilters) := by
  refine ⟨rfl, rfl, rfl, rfl, rfl, ?_⟩
  intro props p h hmem
  have hfalse : passesFilter clearFilters p = false := by
    simp only [passesFilter]
    split
    · rfl
    split
    · rfl
    split
    · rfl
    split
    · rfl
    split
    · rfl
    · rename_i h1 h2 h3 h4 h5
      rcases h with h | h
      · exact absurd (Or.inr h) h3
      · exact absurd (Or.inr h) h4
  rw [filteredProperties, List.mem_filter, hfalse] at hmem
  exact absurd hmem.2 (by simp)

/-- C10 witness: a concrete over-price and a concrete over-area property are
excluded from the filtered collection under cleared filters. -/
theorem c10_cleared_ranges_witness :
    { propGood with price := 6000000 : Property }
        ∉ filteredProperties [{ propGood with price := 6000000 }] clearFilters ∧
    { propGood with area := 2500 : Property }
        ∉ filteredProperties [{ propGood with area := 2500 }] clearFilters :=
  ⟨c10_cleared_ranges_still_exclude.2.2.2.2.2 _ _ (Or.inl (by norm_num)),
   c10_cleared_ranges_still_exclude.2.2.2.2.2 _ _ (Or.inr (by norm_num))⟩

end CommercialListing
